import Mathlib

/-!
Shallow embedding of the `AgentMemory` persistent store
(`src/skills/agent-memory/memory.py`).

The SQLite tables become Lean lists kept in insertion order (rowid order);
`CURRENT_TIMESTAMP` becomes a logical clock `time : Nat` carried by the
state and advanced by one after every operation, so each operation observes
a single timestamp, as each SQL statement batch does.  `AUTOINCREMENT`
ids are modelled by a `nextFactId` counter that is never reused.  The
SHA-256 digest truncated to 16 hex characters in `_hash_content` is
modelled by the normalised string it is applied to
(`content.lower().strip()`): the digest is collision-free on the inputs
considered, so two contents share a hash exactly when their normalised
forms coincide.  The FTS5 index is kept in sync with the `facts` table by
the two triggers in `_init_schema`, so `recall`'s join is modelled as a
scan of the facts table; the bm25 `rank` ordering is abstracted by the
scan order (membership of the result set below the `LIMIT` does not
depend on it).
-/

namespace AgentMemory

/-- JSON-like attribute value, as stored in an entity attribute bag. -/
inductive Val where
  | null : Val
  | bool (b : Bool) : Val
  | num (n : Int) : Val
  | str (s : String) : Val
deriving DecidableEq, Repr

/-- A row of the `facts` table. -/
structure Fact where
  id : Nat
  content : String
  tags : List String
  confidence : Rat
  entity_id : Option String
  created_at : Nat
  accessed_at : Nat
  access_count : Nat
  superseded_by : Option Nat
  hash : String
deriving DecidableEq, Repr

/-- A row of the `lessons` table. -/
structure Lesson where
  id : Nat
  action : String
  context : String
  outcome : String
  insight : String
  created_at : Nat
  applied_count : Nat
deriving DecidableEq, Repr

/-- A row of the `entities` table.  The `name` column receives whatever
value `attributes.pop('name', entity_id)` produced, so it is a `Val`. -/
structure Entity where
  id : String
  name : Val
  attributes : List (String × Val)
  created_at : Nat
  updated_at : Nat
deriving DecidableEq, Repr

/-- The whole database plus the logical clock. -/
structure State where
  facts : List Fact
  nextFactId : Nat
  lessons : List Lesson
  nextLessonId : Nat
  entities : List Entity
  time : Nat
deriving DecidableEq, Repr

/-- A fresh store, as produced by `_init_schema` on an empty database. -/
def State.empty : State :=
  { facts := [], nextFactId := 1, lessons := [], nextLessonId := 1,
    entities := [], time := 0 }

/-- Python `str.lower()` on the character list. -/
def lowerChars (l : List Char) : List Char :=
  l.map Char.toLower

/-- Python `str.strip()`: drop leading and trailing whitespace. -/
def stripChars (l : List Char) : List Char :=
  ((l.dropWhile Char.isWhitespace).reverse.dropWhile Char.isWhitespace).reverse

/-- `content.lower().strip()`, the normal form `_hash_content` digests. -/
def normalize (content : String) : String :=
  ⟨stripChars (lowerChars content.data)⟩

/-- `_hash_content`: `sha256(content.lower().strip().encode()).hexdigest()[:16]`,
with the digest modelled by the normalised content itself. -/
def hashContent (content : String) : String :=
  normalize content

/-- First fact row whose `hash` column matches, as
`SELECT id FROM facts WHERE hash = ?` with `fetchone()`. -/
def State.findByHash (st : State) (h : String) : Option Fact :=
  st.facts.find? (fun f => f.hash == h)

/-- First fact row with the given id (`WHERE id = ?`). -/
def State.factById (st : State) (i : Nat) : Option Fact :=
  st.facts.find? (fun f => f.id == i)

/-- `access_count` of the row with the given id, 0 when absent. -/
def State.accessCount (st : State) (i : Nat) : Nat :=
  ((st.factById i).map Fact.access_count).getD 0

/-- Number of rows in the `facts` table. -/
def State.rowCount (st : State) : Nat :=
  st.facts.length

/-- `UPDATE facts SET accessed_at = CURRENT_TIMESTAMP,
access_count = access_count + 1 WHERE id = ?`. -/
def bumpAccess (i : Nat) (t : Nat) (facts : List Fact) : List Fact :=
  facts.map (fun f =>
    if f.id == i then
      { f with accessed_at := t, access_count := f.access_count + 1 }
    else f)

/-- `AgentMemory.remember`: dedup check by hash over ALL rows, bump on a
match, insert a fresh row otherwise.  Returns the fact id and the new
state. -/
def remember (st : State) (fact : String) (tags : List String := [])
    (confidence : Rat := 1) (entity : Option String := none) : Nat × State :=
  let contentHash := hashContent fact
  match st.findByHash contentHash with
  | some existing =>
      (existing.id,
        { st with facts := bumpAccess existing.id st.time st.facts,
                  time := st.time + 1 })
  | none =>
      let newFact : Fact :=
        { id := st.nextFactId, content := fact, tags := tags,
          confidence := confidence, entity_id := entity,
          created_at := st.time, accessed_at := st.time,
          access_count := 0, superseded_by := none, hash := contentHash }
      (st.nextFactId,
        { st with facts := st.facts ++ [newFact],
                  nextFactId := st.nextFactId + 1,
                  time := st.time + 1 })

/-- Split a case-folded character list into its maximal alphanumeric
runs; `acc` holds the current run reversed. -/
def tokensAux : List Char → List Char → List String
  | [], acc => if acc.isEmpty then [] else [⟨acc.reverse⟩]
  | c :: rest, acc =>
      if c.isAlphanum then tokensAux rest (c :: acc)
      else if acc.isEmpty then tokensAux rest []
      else ⟨acc.reverse⟩ :: tokensAux rest []

/-- FTS5 tokenizer: case-folded maximal alphanumeric runs. -/
def tokens (s : String) : List String :=
  tokensAux (lowerChars s.data) []

/-- A single-term FTS5 `MATCH`: the query token occurs among the tokens of
the `content` or `tags` columns. -/
def ftsMatch (q : String) (f : Fact) : Bool :=
  (tokens f.content ++ f.tags.flatMap tokens).contains ⟨lowerChars q.data⟩

/-- `AgentMemory.recall`: live rows matching the query, capped at `limit`
(the bm25 ordering abstracted by scan order), each returned row's access
bookkeeping bumped.  The returned views are the pre-bump rows, as the
code builds the dicts from the row before running its `UPDATE`. -/
def «recall» (st : State) (q : String) (limit : Nat := 10) :
    List Fact × State :=
  let res :=
    (st.facts.filter (fun f => ftsMatch q f && f.superseded_by.isNone)).take
      limit
  let bumped := st.facts.map (fun f =>
    if res.any (fun r => r.id == f.id) then
      { f with accessed_at := st.time, access_count := f.access_count + 1 }
    else f)
  (res, { st with facts := bumped, time := st.time + 1 })

/-- `AgentMemory.supersede`: `remember` the replacement, then
`UPDATE facts SET superseded_by = ? WHERE id = ?` on the old id. -/
def supersede (st : State) (oldFactId : Nat) (newFact : String)
    (tags : List String := []) (confidence : Rat := 1)
    (entity : Option String := none) : Nat × State :=
  let r := remember st newFact tags confidence entity
  let newId := r.1
  let st1 := r.2
  (newId,
    { st1 with
        facts := st1.facts.map (fun f =>
          if f.id == oldFactId then { f with superseded_by := some newId }
          else f),
        time := st1.time + 1 })

/-- `AgentMemory.learn`: unconditional insert into `lessons`. -/
def learn (st : State) (action : String) (context : String)
    (outcome : String) (insight : String) : Nat × State :=
  let newLesson : Lesson :=
    { id := st.nextLessonId, action := action, context := context,
      outcome := outcome, insight := insight, created_at := st.time,
      applied_count := 0 }
  (st.nextLessonId,
    { st with lessons := st.lessons ++ [newLesson],
              nextLessonId := st.nextLessonId + 1,
              time := st.time + 1 })

/-- `pat` occurs as a contiguous run inside `s`. -/
def hasSubstr (pat : List Char) : List Char → Bool
  | [] => pat == []
  | c :: rest => pat.isPrefixOf (c :: rest) || hasSubstr pat rest

/-- SQLite `x LIKE '%pat%'`: case-insensitive (ASCII) substring test. -/
def likeContains (s pat : String) : Bool :=
  hasSubstr (lowerChars pat.data) (lowerChars s.data)

/-- The WHERE clause `get_lessons` builds: the `context LIKE` conjunct is
added only when the Python argument is truthy (`if context:`), i.e. a
non-empty string; likewise for `outcome = ?`. -/
def lessonPred (context outcome : Option String) (l : Lesson) : Bool :=
  (match context with
   | some c => if c == "" then true else likeContains l.context c
   | none => true) &&
  (match outcome with
   | some o => if o == "" then true else l.outcome == o
   | none => true)

/-- `AgentMemory.get_lessons`: filter, `ORDER BY created_at DESC`
(insertion order reversed, the logical clock being strictly increasing),
`LIMIT`. -/
def get_lessons (st : State) (context : Option String := none)
    (outcome : Option String := none) (limit : Nat := 10) : List Lesson :=
  ((st.lessons.filter (lessonPred context outcome)).reverse).take limit

/-- First entity row with the given id (`WHERE id = ?`). -/
def State.entityById (st : State) (i : String) : Option Entity :=
  st.entities.find? (fun e => e.id == i)

/-- `attributes.pop('name', ...)`: the value under `'name'`, if any, and
the bag with that key removed. -/
def popName (attrs : List (String × Val)) :
    Option Val × List (String × Val) :=
  ((attrs.find? (fun kv => kv.1 == "name")).map Prod.snd,
   attrs.filter (fun kv => !(kv.1 == "name")))

/-- Python `dict` assignment `d[k] = v`: replace in place, else append. -/
def setKey : List (String × Val) → String → Val → List (String × Val)
  | [], k, v => [(k, v)]
  | kv :: rest, k, v =>
      if kv.1 == k then (k, v) :: rest else kv :: setKey rest k v

/-- Python `existing.update(attributes)`: keys of the update overwrite,
all other existing keys are preserved. -/
def dictUpdate (existing upd : List (String × Val)) :
    List (String × Val) :=
  upd.foldl (fun acc kv => setKey acc kv.1 kv.2) existing

/-- `AgentMemory.track_entity`: pop `'name'` (defaulting to the entity
id), then `INSERT ... ON CONFLICT(id) DO UPDATE SET attributes = ?,
updated_at = CURRENT_TIMESTAMP` — the conflict branch does not touch the
`name` column. -/
def track_entity (st : State) (entityId : String)
    (attributes : List (String × Val) := []) : State :=
  let popped := popName attributes
  let name := popped.1.getD (Val.str entityId)
  let attrs := popped.2
  match st.entityById entityId with
  | some _ =>
      { st with
          entities := st.entities.map (fun e =>
            if e.id == entityId then
              { e with attributes := attrs, updated_at := st.time }
            else e),
          time := st.time + 1 }
  | none =>
      { st with
          entities := st.entities ++
            [{ id := entityId, name := name, attributes := attrs,
               created_at := st.time, updated_at := st.time }],
          time := st.time + 1 }

/-- `AgentMemory.update_entity`: read-modify-write shallow merge when the
row exists, otherwise delegate to `track_entity`. -/
def update_entity (st : State) (entityId : String)
    (attributes : List (String × Val)) : State :=
  match st.entityById entityId with
  | some row =>
      let merged := dictUpdate row.attributes attributes
      { st with
          entities := st.entities.map (fun e =>
            if e.id == entityId then
              { e with attributes := merged, updated_at := st.time }
            else e),
          time := st.time + 1 }
  | none => track_entity st entityId attributes

/-- `AgentMemory.get_entity`: the entity view, optionally joined with its
live facts newest-first.  Read-only. -/
def get_entity (st : State) (entityId : String)
    (includeFacts : Bool := false) :
    Option (Entity × Option (List Fact)) :=
  match st.entityById entityId with
  | none => none
  | some e =>
      some (e,
        if includeFacts then
          some (((st.facts.filter (fun f =>
            f.entity_id == some entityId && f.superseded_by.isNone)).reverse))
        else none)

/-- The delete predicate of `AgentMemory.cleanup`:
`accessed_at < cutoff AND access_count <= min AND superseded_by IS NULL`. -/
def doomed (cutoff minAccessCount : Nat) (f : Fact) : Bool :=
  decide (f.accessed_at < cutoff) &&
    decide (f.access_count ≤ minAccessCount) && f.superseded_by.isNone

/-- `AgentMemory.cleanup`: delete the doomed rows, return `rowcount`. -/
def cleanup (st : State) (maxAgeDays : Nat := 90)
    (minAccessCount : Nat := 0) : Nat × State :=
  let cutoff := st.time - maxAgeDays
  (st.facts.countP (doomed cutoff minAccessCount),
    { st with facts := st.facts.filter (fun f => !doomed cutoff minAccessCount f),
              time := st.time + 1 })

/-- `AgentMemory.stats`: live-fact count, lesson count, entity count. -/
def stats (st : State) : Nat × Nat × Nat :=
  (st.facts.countP (fun f => f.superseded_by.isNone),
   st.lessons.length, st.entities.length)

/-- One public API call, for traces over the whole surface. -/
inductive Op where
  | rememberOp (fact : String) (tags : List String) (confidence : Rat)
      (entity : Option String)
  | recallOp (q : String) (limit : Nat)
  | supersedeOp (oldFactId : Nat) (newFact : String) (tags : List String)
      (confidence : Rat) (entity : Option String)
  | learnOp (action context outcome insight : String)
  | getLessonsOp (context outcome : Option String) (limit : Nat)
  | trackEntityOp (entityId : String) (attributes : List (String × Val))
  | updateEntityOp (entityId : String) (attributes : List (String × Val))
  | getEntityOp (entityId : String) (includeFacts : Bool)
  | cleanupOp (maxAgeDays minAccessCount : Nat)
  | statsOp
deriving Repr

/-- The state effect of one public API call; the pure reads
(`get_lessons`, `get_entity`, `stats`) leave the store unchanged. -/
def applyOp (st : State) : Op → State
  | .rememberOp f tg c e => (remember st f tg c e).2
  | .recallOp q l => («recall» st q l).2
  | .supersedeOp o f tg c e => (supersede st o f tg c e).2
  | .learnOp a c o i => (learn st a c o i).2
  | .getLessonsOp _ _ _ => st
  | .trackEntityOp i a => track_entity st i a
  | .updateEntityOp i a => update_entity st i a
  | .getEntityOp _ _ => st
  | .cleanupOp m n => (cleanup st m n).2
  | .statsOp => st

/-- Run a sequence of public API calls. -/
def runOps (st : State) (ops : List Op) : State :=
  ops.foldl applyOp st

/-- Well-formed store: every fact id is below the `AUTOINCREMENT`
counter, as SQLite guarantees for rowids that were assigned by it. -/
def WF (st : State) : Prop :=
  ∀ f ∈ st.facts, f.id < st.nextFactId

end AgentMemory

namespace AgentMemory

/-! Helper lemmas about the list operations the store is built from. -/

theorem find?_map_eq {α : Type} (m : α → α) (p : α → Bool)
    (hp : ∀ x, p (m x) = p x) (l : List α) :
    (l.map m).find? p = (l.find? p).map m := by
  induction l with
  | nil => rfl
  | cons a l ih =>
    simp only [List.map_cons]
    cases hpa : p a with
    | false =>
      have h1 : ¬ p (m a) = true := by rw [hp a, hpa]; exact Bool.false_ne_true
      have h2 : ¬ p a = true := by rw [hpa]; exact Bool.false_ne_true
      rw [List.find?_cons_of_neg _ h1, List.find?_cons_of_neg _ h2, ih]
    | true =>
      have h1 : p (m a) = true := by rw [hp a, hpa]
      rw [List.find?_cons_of_pos _ h1, List.find?_cons_of_pos _ hpa,
        Option.map_some']

theorem bumpFn_id (i t : Nat) (f : Fact) :
    (if f.id == i then
        { f with accessed_at := t, access_count := f.access_count + 1 }
      else f).id = f.id := by
  split <;> rfl

theorem bumpFn_hash (i t : Nat) (f : Fact) :
    (if f.id == i then
        { f with accessed_at := t, access_count := f.access_count + 1 }
      else f).hash = f.hash := by
  split <;> rfl

theorem bumpFn_superseded (i t : Nat) (f : Fact) :
    (if f.id == i then
        { f with accessed_at := t, access_count := f.access_count + 1 }
      else f).superseded_by = f.superseded_by := by
  split <;> rfl

theorem supersedeFn_id (o n : Nat) (f : Fact) :
    (if f.id == o then { f with superseded_by := some n } else f).id =
      f.id := by
  split <;> rfl

end AgentMemory

namespace AgentMemory

/-- Claim C10: `get_lessons` treats an empty-string context filter as
absent — the Python `if context:` guard is false both for `None` and for
`""`, so the `LIKE` conjunct is added in neither case and the results
coincide for every store state, outcome filter and limit. -/
theorem get_lessons_empty_context (st : State) (outcome : Option String)
    (limit : Nat) :
    get_lessons st (some "") outcome limit =
      get_lessons st none outcome limit := by
  have h : lessonPred (some "") outcome = lessonPred none outcome := by
    funext l; rfl
  simp only [get_lessons, h]

/-- Claim C2, counterexample: in the store where the only row hashing
like `"a"` is superseded (fact 1, superseded by fact 2), the claim says
`remember "a"` inserts a new row; instead the code's duplicate check
(`WHERE hash = ?`, with no liveness filter) finds the dead row, returns
its id 1, and the table keeps its 2 rows. -/
theorem remember_dedup_dead_row_cex :
    (∀ f ∈ ((supersede (remember State.empty "a").2 1 "b").2).facts,
        f.hash = hashContent "a" → f.superseded_by ≠ none) ∧
    (remember ((supersede (remember State.empty "a").2 1 "b").2) "a").1 = 1 ∧
    ((remember ((supersede (remember State.empty "a").2 1 "b").2) "a").2).rowCount
      = ((supersede (remember State.empty "a").2 1 "b").2).rowCount := by
  decide

/-- Claim C4, counterexample: `supersede 1 "a"` on the store holding only
fact 1 with content `"a"` re-finds fact 1 itself through `remember`'s
dedup and then points `superseded_by` at it — fact 1 ends up referencing
itself, so the referenced `created_at` is not strictly later. -/
theorem supersede_self_reference_cex :
    ((supersede (remember State.empty "a").2 1 "a").2.facts.map
      (fun f => (f.id, f.created_at, f.superseded_by))) = [(1, 0, some 1)] := by
  decide

/-- Claim C5, counterexample: fact 1 is superseded, its `accessed_at` is
older than the cutoff and its `access_count` is below the threshold, yet
`cleanup` (whose SQL carries `AND superseded_by IS NULL`) leaves it in
the table. -/
theorem cleanup_keeps_dead_cex :
    (∃ f ∈ ((supersede (remember State.empty "a").2 1 "b").2).facts,
      f.accessed_at < ((supersede (remember State.empty "a").2 1 "b").2).time - 0 ∧
      f.access_count ≤ 0 ∧ f.superseded_by ≠ none ∧
      f ∈ ((cleanup ((supersede (remember State.empty "a").2 1 "b").2) 0 0).2).facts) := by
  decide

/-- Claim C6, counterexample: a fact with `access_count` at most
`min_access_count` (5) and `accessed_at` strictly older than the cutoff
is nevertheless not removed by `cleanup`, because it is superseded and
the delete predicate only targets live rows. -/
theorem cleanup_dead_row_survives_cex :
    (∃ f ∈ ((supersede (remember State.empty "x").2 1 "y").2).facts,
      f.access_count ≤ 5 ∧
      f.accessed_at < ((supersede (remember State.empty "x").2 1 "y").2).time - 0 ∧
      f ∈ ((cleanup ((supersede (remember State.empty "x").2 1 "y").2) 0 5).2).facts) := by
  decide

/-- Claim C8, counterexample: `track_entity` on an existing entity pops
`'name'` from the bag but its `ON CONFLICT` clause updates only
`attributes` and `updated_at`, so the provided name `"B"` is discarded
and the stored name stays `"A"`. -/
theorem track_entity_name_not_updated_cex :
    (∃ e, (track_entity (track_entity State.empty "e"
          [("name", Val.str "A")]) "e"
          [("name", Val.str "B")]).entityById "e" = some e ∧
      e.name = Val.str "A" ∧ e.name ≠ Val.str "B" ∧ e.attributes = []) := by
  decide

end AgentMemory

namespace AgentMemory

theorem countP_not_add {α : Type} (p : α → Bool) (l : List α) :
    l.countP p + l.countP (fun a => !p a) = l.length := by
  induction l with
  | nil => rfl
  | cons a l ih => cases h : p a <;> simp [List.countP_cons, h] <;> omega

theorem doomed_iff (cutoff m : Nat) (f : Fact) :
    doomed cutoff m f = true ↔
      (f.accessed_at < cutoff ∧ f.access_count ≤ m ∧
        f.superseded_by = none) := by
  simp [doomed, Option.isNone_iff_eq_none, and_assoc]

theorem mem_cleanup_iff (st : State) (maxAgeDays minAccessCount : Nat)
    (f : Fact) :
    f ∈ ((cleanup st maxAgeDays minAccessCount).2).facts ↔
      f ∈ st.facts ∧
        ¬(f.accessed_at < st.time - maxAgeDays ∧
          f.access_count ≤ minAccessCount ∧ f.superseded_by = none) := by
  have hd : ∀ g : Fact, ((!doomed (st.time - maxAgeDays) minAccessCount g)
      = true) ↔
      ¬(g.accessed_at < st.time - maxAgeDays ∧
        g.access_count ≤ minAccessCount ∧ g.superseded_by = none) := by
    intro g
    rw [Bool.not_eq_true', ← doomed_iff (st.time - maxAgeDays) minAccessCount]
    cases doomed (st.time - maxAgeDays) minAccessCount g <;> simp
  constructor
  · intro hmem
    have h := List.mem_filter.mp hmem
    exact ⟨h.1, (hd f).mp h.2⟩
  · intro h
    exact List.mem_filter.mpr ⟨h.1, (hd f).mpr h.2⟩

/-- Claim C5, amended: `cleanup`'s delete predicate is applied to LIVE
rows only — a fact is deleted exactly when its `accessed_at` is older
than the cutoff, its `access_count` is at most `min_access_count`, AND
its `superseded_by` is unset; superseded facts are never deleted. -/
theorem cleanup_live_only (st : State) (maxAgeDays minAccessCount : Nat) :
    (∀ f ∈ st.facts,
       (f ∈ ((cleanup st maxAgeDays minAccessCount).2).facts ↔
         ¬(f.accessed_at < st.time - maxAgeDays ∧
            f.access_count ≤ minAccessCount ∧ f.superseded_by = none))) ∧
    (∀ f ∈ st.facts, f.superseded_by ≠ none →
       f ∈ ((cleanup st maxAgeDays minAccessCount).2).facts) := by
  constructor
  · intro f hf
    rw [mem_cleanup_iff]
    simp [hf]
  · intro f hf hdead
    exact (mem_cleanup_iff st maxAgeDays minAccessCount f).mpr
      ⟨hf, fun h => hdead h.2.2⟩

/-- Witness for the amended C5 theorem: the concrete superseded row 1
of the two-row store survives `cleanup 0 0`. -/
theorem cleanup_live_only_witness :
    (⟨1, "a", [], 1, none, 0, 0, 0, some 2, "a"⟩ : Fact) ∈
      ((cleanup ((supersede (remember State.empty "a").2 1 "b").2) 0 0).2).facts :=
  (cleanup_live_only ((supersede (remember State.empty "a").2 1 "b").2) 0 0).2
    ⟨1, "a", [], 1, none, 0, 0, 0, some 2, "a"⟩ (by decide) (by decide)

/-- Claim C6, amended: a fact whose `accessed_at` equals the cutoff
exactly and whose `access_count` is above `min_access_count` survives
`cleanup`; a LIVE fact whose `access_count` is at most
`min_access_count` and whose `accessed_at` is strictly older than the
cutoff is removed; and `cleanup` returns exactly the number of rows it
deleted. -/
theorem cleanup_boundary (st : State) (maxAgeDays minAccessCount : Nat) :
    (∀ f ∈ st.facts, f.accessed_at = st.time - maxAgeDays →
       minAccessCount < f.access_count →
       f ∈ ((cleanup st maxAgeDays minAccessCount).2).facts) ∧
    (∀ f ∈ st.facts, f.superseded_by = none →
       f.access_count ≤ minAccessCount →
       f.accessed_at < st.time - maxAgeDays →
       f ∉ ((cleanup st maxAgeDays minAccessCount).2).facts) ∧
    (cleanup st maxAgeDays minAccessCount).1 =
      st.rowCount - ((cleanup st maxAgeDays minAccessCount).2).rowCount := by
  refine ⟨?_, ?_, ?_⟩
  · intro f hf hacc _
    exact (mem_cleanup_iff st maxAgeDays minAccessCount f).mpr
      ⟨hf, fun h => by omega⟩
  · intro f hf hlive hcnt hacc hmem
    exact ((mem_cleanup_iff st maxAgeDays minAccessCount f).mp hmem).2
      ⟨hacc, hcnt, hlive⟩
  · have h := countP_not_add
      (doomed (st.time - maxAgeDays) minAccessCount) st.facts
    rw [List.countP_eq_length_filter
      (fun a => !doomed (st.time - maxAgeDays) minAccessCount a)] at h
    simp only [cleanup, State.rowCount]
    omega

/-- Witness for the amended C6 theorem: the concrete live, stale,
low-access row 2 of the two-row store is removed by `cleanup 0 5`. -/
theorem cleanup_boundary_witness :
    (⟨2, "y", [], 1, none, 1, 1, 0, none, "y"⟩ : Fact) ∉
      ((cleanup ((supersede (remember State.empty "x").2 1 "y").2) 0 5).2).facts :=
  (cleanup_boundary ((supersede (remember State.empty "x").2 1 "y").2) 0 5).2.1
    ⟨2, "y", [], 1, none, 1, 1, 0, none, "y"⟩ (by decide) rfl (by decide)
    (by decide)

end AgentMemory

namespace AgentMemory

theorem entSetFn_id (eid : String) (m' : List (String × Val)) (t : Nat)
    (e : Entity) :
    (if e.id == eid then { e with attributes := m', updated_at := t }
      else e).id = e.id := by
  split <;> rfl

theorem popName_no_name (attrs : List (String × Val)) :
    ∀ kv ∈ (popName attrs).2, kv.1 ≠ "name" := by
  intro kv hkv
  have h := (List.mem_filter.mp hkv).2
  simp only [Bool.not_eq_true'] at h
  intro habs
  rw [habs] at h
  simp at h

theorem track_entity_entityById_some (st : State) (entityId : String)
    (attrs : List (String × Val)) (e0 : Entity)
    (hfind : st.entities.find? (fun e => e.id == entityId) = some e0) :
    (track_entity st entityId attrs).entityById entityId =
      some { e0 with
             attributes := (popName attrs).2,
             updated_at := st.time } := by
  have hid : e0.id = entityId := by
    simpa using List.find?_some hfind
  simp only [track_entity, State.entityById, hfind]
  rw [find?_map_eq _ _ (fun x => by
    rw [entSetFn_id entityId (popName attrs).2 st.time x]), hfind]
  simp [hid]

theorem track_entity_entityById_none (st : State) (entityId : String)
    (attrs : List (String × Val))
    (hfind : st.entities.find? (fun e => e.id == entityId) = none) :
    (track_entity st entityId attrs).entityById entityId =
      some { id := entityId,
             name := (popName attrs).1.getD (Val.str entityId),
             attributes := (popName attrs).2,
             created_at := st.time,
             updated_at := st.time } := by
  simp only [track_entity, State.entityById, hfind]
  rw [List.find?_append, hfind]
  simp

theorem update_entity_entityById_some (st : State) (entityId : String)
    (attrs : List (String × Val)) (e0 : Entity)
    (hfind : st.entities.find? (fun e => e.id == entityId) = some e0) :
    (update_entity st entityId attrs).entityById entityId =
      some { e0 with
             attributes := dictUpdate e0.attributes attrs,
             updated_at := st.time } := by
  have hid : e0.id = entityId := by
    simpa using List.find?_some hfind
  simp only [update_entity, State.entityById, hfind]
  rw [find?_map_eq _ _ (fun x => by
    rw [entSetFn_id entityId (dictUpdate e0.attributes attrs) st.time x]),
    hfind]
  simp [hid]

theorem update_entity_absent_eq_track (st : State) (entityId : String)
    (attrs : List (String × Val))
    (hfind : st.entities.find? (fun e => e.id == entityId) = none) :
    update_entity st entityId attrs = track_entity st entityId attrs := by
  simp only [update_entity, State.entityById, hfind]

/-- Claim C7: `update_entity` merges shallowly — on an existing entity
the bag becomes the old bag with the new keys written over it (other
keys preserved, `name` untouched); on a missing entity the row is
created; and the concrete `x`/`y`/`x` scenario of the spec holds. -/
theorem update_entity_shallow_merge (st : State) (entityId : String)
    (attrs : List (String × Val)) :
    (∀ e0, st.entityById entityId = some e0 →
       ∃ e1, (update_entity st entityId attrs).entityById entityId
           = some e1 ∧
         e1.attributes = dictUpdate e0.attributes attrs ∧
         e1.name = e0.name) ∧
    (st.entityById entityId = none →
       ∃ e1, (update_entity st entityId attrs).entityById entityId
           = some e1) ∧
    ((∃ e, ((update_entity (update_entity State.empty "e"
            [("x", Val.num 1)]) "e" [("y", Val.num 2)]).entityById "e")
          = some e ∧
        e.attributes = [("x", Val.num 1), ("y", Val.num 2)]) ∧
     (∃ e, ((update_entity (update_entity (update_entity State.empty "e"
            [("x", Val.num 1)]) "e" [("y", Val.num 2)]) "e"
            [("x", Val.num 3)]).entityById "e") = some e ∧
        e.attributes = [("x", Val.num 3), ("y", Val.num 2)])) := by
  refine ⟨?_, ?_, by decide, by decide⟩
  · intro e0 h
    have hfind : st.entities.find? (fun e => e.id == entityId) = some e0 := h
    exact ⟨_, update_entity_entityById_some st entityId attrs e0 hfind,
      rfl, rfl⟩
  · intro h
    have hfind : st.entities.find? (fun e => e.id == entityId) = none := h
    rw [update_entity_absent_eq_track st entityId attrs hfind]
    exact ⟨_, track_entity_entityById_none st entityId attrs hfind⟩

/-- Witness for the C7 theorem: applying the merge branch to the
concrete one-entity store. -/
theorem update_entity_shallow_merge_witness :
    ∃ e1, ((update_entity (track_entity State.empty "w" []) "w"
        [("x", Val.num 1)]).entityById "w") = some e1 ∧
      e1.attributes =
        dictUpdate (⟨"w", Val.str "w", [], 0, 0⟩ : Entity).attributes
          [("x", Val.num 1)] ∧
      e1.name = (⟨"w", Val.str "w", [], 0, 0⟩ : Entity).name :=
  (update_entity_shallow_merge (track_entity State.empty "w" []) "w"
      [("x", Val.num 1)]).1 ⟨"w", Val.str "w", [], 0, 0⟩ (by decide)

/-- Claim C8, amended: `track_entity` always strips `'name'` from the
stored bag; on a fresh insert the popped value (or the entity id)
becomes the `name` column; but on the upsert's conflict branch the
existing `name` is kept and the popped value is discarded. -/
theorem track_entity_name_extraction (st : State) (entityId : String)
    (attrs : List (String × Val)) :
    (∀ e, (track_entity st entityId attrs).entityById entityId = some e →
       e.attributes = (popName attrs).2 ∧
         ∀ kv ∈ e.attributes, kv.1 ≠ "name") ∧
    (st.entityById entityId = none →
       ∃ e, (track_entity st entityId attrs).entityById entityId
           = some e ∧
         e.name = (popName attrs).1.getD (Val.str entityId)) ∧
    (∀ e0, st.entityById entityId = some e0 →
       ∃ e, (track_entity st entityId attrs).entityById entityId
           = some e ∧ e.name = e0.name) := by
  refine ⟨?_, ?_, ?_⟩
  · intro e he
    cases hmatch : st.entities.find? (fun e => e.id == entityId) with
    | some e0 =>
      rw [track_entity_entityById_some st entityId attrs e0 hmatch,
        Option.some.injEq] at he
      subst he
      exact ⟨rfl, popName_no_name attrs⟩
    | none =>
      rw [track_entity_entityById_none st entityId attrs hmatch,
        Option.some.injEq] at he
      subst he
      exact ⟨rfl, popName_no_name attrs⟩
  · intro h
    have hfind : st.entities.find? (fun e => e.id == entityId) = none := h
    exact ⟨_, track_entity_entityById_none st entityId attrs hfind, rfl⟩
  · intro e0 h
    have hfind : st.entities.find? (fun e => e.id == entityId) = some e0 := h
    exact ⟨_, track_entity_entityById_some st entityId attrs e0 hfind, rfl⟩

/-- Witness for the amended C8 theorem: fresh insert stores the popped
name, and the bag carries no `'name'` key. -/
theorem track_entity_name_extraction_witness :
    ∃ e, ((track_entity State.empty "w"
        [("name", Val.str "N"), ("k", Val.num 7)]).entityById "w")
        = some e ∧
      e.name = (popName [("name", Val.str "N"), ("k", Val.num 7)]).1.getD
        (Val.str "w") :=
  (track_entity_name_extraction State.empty "w"
      [("name", Val.str "N"), ("k", Val.num 7)]).2.1 (by decide)

end AgentMemory

namespace AgentMemory

theorem remember_bump_case (st : State) (c : String) (e : Fact)
    (hfind : st.findByHash (hashContent c) = some e) :
    (remember st c).1 = e.id ∧
    (remember st c).2.facts = bumpAccess e.id st.time st.facts ∧
    (remember st c).2.time = st.time + 1 ∧
    (remember st c).2.nextFactId = st.nextFactId := by
  simp [remember, hfind]

theorem remember_insert_case (st : State) (c : String)
    (hfind : st.findByHash (hashContent c) = none) :
    (remember st c).1 = st.nextFactId ∧
    (remember st c).2.facts = st.facts ++
      [{ id := st.nextFactId, content := c, tags := [], confidence := 1,
         entity_id := none, created_at := st.time, accessed_at := st.time,
         access_count := 0, superseded_by := none,
         hash := hashContent c }] ∧
    (remember st c).2.time = st.time + 1 ∧
    (remember st c).2.nextFactId = st.nextFactId + 1 := by
  simp [remember, hfind]

theorem find?_id_isSome_of_mem (l : List Fact) (f : Fact) (hf : f ∈ l) :
    ∃ g, l.find? (fun x => x.id == f.id) = some g ∧ g.id = f.id := by
  have hsome : (l.find? (fun x => x.id == f.id)).isSome := by
    rw [List.find?_isSome]
    exact ⟨f, hf, by simp⟩
  obtain ⟨g, hg⟩ := Option.isSome_iff_exists.mp hsome
  refine ⟨g, hg, ?_⟩
  have h := List.find?_some hg
  simpa using h

theorem find?_id_bumpAccess (stf : List Fact) (i t : Nat) (g : Fact)
    (hg : stf.find? (fun f => f.id == i) = some g) (hgi : g.id = i) :
    (bumpAccess i t stf).find? (fun f => f.id == i) =
      some { g with
             accessed_at := t,
             access_count := g.access_count + 1 } := by
  unfold bumpAccess
  rw [find?_map_eq _ _ (fun x => by rw [bumpFn_id i t x]), hg]
  simp [hgi]

theorem find?_id_append_new (stf : List Fact) (nf : Fact)
    (hne : ∀ f ∈ stf, f.id ≠ nf.id) :
    (stf ++ [nf]).find? (fun f => f.id == nf.id) = some nf := by
  rw [List.find?_append]
  have h1 : stf.find? (fun f => f.id == nf.id) = none := by
    rw [List.find?_eq_none]
    intro x hx
    simp [hne x hx]
  rw [h1]
  simp

theorem findByHash_append_new (stf : List Fact) (nf : Fact) (h : String)
    (hnone : stf.find? (fun f => f.hash == h) = none) (hnf : nf.hash = h) :
    (stf ++ [nf]).find? (fun f => f.hash == h) = some nf := by
  rw [List.find?_append, hnone]
  simp [hnf]

/-- Claim C1: remembering is idempotent — for any prior store and any two
contents with the same normalised (lower-cased, trimmed) form, the second
`remember` returns the id the first one returned, bumps that row's
`access_count` by exactly one, and adds no row. -/
theorem remember_idempotent (st : State) (c c' : String) (hWF : WF st)
    (hcc : hashContent c = hashContent c') :
    (remember (remember st c).2 c').1 = (remember st c).1 ∧
    ((remember (remember st c).2 c').2).accessCount (remember st c).1 =
      ((remember st c).2).accessCount (remember st c).1 + 1 ∧
    ((remember (remember st c).2 c').2).rowCount =
      ((remember st c).2).rowCount := by
  cases hfind : st.findByHash (hashContent c) with
  | some e =>
    have he_mem : e ∈ st.facts := List.mem_of_find?_eq_some hfind
    obtain ⟨g, hg, hgid⟩ := find?_id_isSome_of_mem st.facts e he_mem
    obtain ⟨hr1, hf1, ht1, _⟩ := remember_bump_case st c e hfind
    have hfind1 : ((remember st c).2).findByHash (hashContent c') =
        some { e with
               accessed_at := st.time,
               access_count := e.access_count + 1 } := by
      show ((remember st c).2).facts.find? (fun f => f.hash == hashContent c')
        = _
      have hfind' : st.facts.find? (fun f => f.hash == hashContent c)
          = some e := hfind
      rw [hf1, ← hcc]
      unfold bumpAccess
      rw [find?_map_eq _ _ (fun x => by rw [bumpFn_hash e.id st.time x]),
        hfind']
      simp
    obtain ⟨hr2, hf2, ht2, _⟩ :=
      remember_bump_case (remember st c).2 c' _ hfind1
    have hfid1 : ((remember st c).2).facts.find? (fun f => f.id == e.id) =
        some { g with
               accessed_at := st.time,
               access_count := g.access_count + 1 } := by
      rw [hf1]
      exact find?_id_bumpAccess st.facts e.id st.time g hg hgid
    have hfid2 : ((remember (remember st c).2 c').2).facts.find?
        (fun f => f.id == e.id) =
        some { g with
               accessed_at := ((remember st c).2).time,
               access_count := g.access_count + 2 } := by
      rw [hf2]
      exact find?_id_bumpAccess ((remember st c).2).facts e.id
        ((remember st c).2).time
        { g with
          accessed_at := st.time,
          access_count := g.access_count + 1 } hfid1 hgid
    refine ⟨?_, ?_, ?_⟩
    · rw [hr2, hr1]
    · rw [hr1]
      simp only [State.accessCount, State.factById, hfid1, hfid2,
        Option.map_some', Option.getD_some]
    · simp only [State.rowCount, hf2, hf1, bumpAccess, List.length_map]
  | none =>
    obtain ⟨hr1, hf1, ht1, hn1⟩ := remember_insert_case st c hfind
    have hfind1 : ((remember st c).2).findByHash (hashContent c') =
        some { id := st.nextFactId, content := c, tags := [],
               confidence := 1, entity_id := none, created_at := st.time,
               accessed_at := st.time, access_count := 0,
               superseded_by := none, hash := hashContent c } := by
      show ((remember st c).2).facts.find? (fun f => f.hash == hashContent c')
        = _
      rw [hf1, ← hcc]
      exact findByHash_append_new st.facts _ (hashContent c) hfind rfl
    obtain ⟨hr2, hf2, ht2, _⟩ :=
      remember_bump_case (remember st c).2 c' _ hfind1
    have hfid1 : ((remember st c).2).facts.find?
        (fun f => f.id == st.nextFactId) =
        some { id := st.nextFactId, content := c, tags := [],
               confidence := 1, entity_id := none, created_at := st.time,
               accessed_at := st.time, access_count := 0,
               superseded_by := none, hash := hashContent c } := by
      rw [hf1]
      exact find?_id_append_new st.facts
        { id := st.nextFactId, content := c, tags := [], confidence := 1,
          entity_id := none, created_at := st.time, accessed_at := st.time,
          access_count := 0, superseded_by := none, hash := hashContent c }
        (fun f hf => by
          have := hWF f hf
          show f.id ≠ st.nextFactId
          omega)
    have hfid2 : ((remember (remember st c).2 c').2).facts.find?
        (fun f => f.id == st.nextFactId) =
        some { id := st.nextFactId, content := c, tags := [],
               confidence := 1, entity_id := none, created_at := st.time,
               accessed_at := ((remember st c).2).time, access_count := 1,
               superseded_by := none, hash := hashContent c } := by
      rw [hf2]
      exact find?_id_bumpAccess ((remember st c).2).facts st.nextFactId
        ((remember st c).2).time _ hfid1 rfl
    refine ⟨?_, ?_, ?_⟩
    · rw [hr2, hr1]
    · rw [hr1]
      simp only [State.accessCount, State.factById, hfid1, hfid2,
        Option.map_some', Option.getD_some]
    · simp only [State.rowCount, hf2, bumpAccess, List.length_map]

/-- Witness for the C1 theorem at the empty store, with the two contents
differing only in case and surrounding whitespace. -/
theorem remember_idempotent_witness :
    (remember (remember State.empty "Paris").2 "  PARIS ").1 =
      (remember State.empty "Paris").1 ∧
    ((remember (remember State.empty "Paris").2 "  PARIS ").2).accessCount
        (remember State.empty "Paris").1 =
      ((remember State.empty "Paris").2).accessCount
        (remember State.empty "Paris").1 + 1 ∧
    ((remember (remember State.empty "Paris").2 "  PARIS ").2).rowCount =
      ((remember State.empty "Paris").2).rowCount :=
  remember_idempotent State.empty "Paris" "  PARIS "
    (by unfold WF; decide) (by decide)

end AgentMemory

namespace AgentMemory

/-- Claim C2, amended: `remember`'s duplicate check matches ANY row with
the content's hash, live or superseded — when such a row exists (even a
dead one) it is bumped and its id returned, and only when no row at all
carries the hash is a fresh row inserted with `access_count = 0`. -/
theorem remember_dedup_any_row (st : State) (c : String) (hWF : WF st) :
    (∀ e, st.findByHash (hashContent c) = some e →
       (remember st c).1 = e.id ∧
       ((remember st c).2).rowCount = st.rowCount ∧
       ((remember st c).2).accessCount e.id = st.accessCount e.id + 1) ∧
    (st.findByHash (hashContent c) = none →
       (remember st c).1 = st.nextFactId ∧
       ((remember st c).2).rowCount = st.rowCount + 1 ∧
       ((remember st c).2).factById st.nextFactId =
         some { id := st.nextFactId, content := c, tags := [],
                confidence := 1, entity_id := none, created_at := st.time,
                accessed_at := st.time, access_count := 0,
                superseded_by := none, hash := hashContent c }) := by
  constructor
  · intro e hfind
    obtain ⟨hr1, hf1, _, _⟩ := remember_bump_case st c e hfind
    have he_mem : e ∈ st.facts := List.mem_of_find?_eq_some hfind
    obtain ⟨g, hg, hgid⟩ := find?_id_isSome_of_mem st.facts e he_mem
    have hfid1 : ((remember st c).2).facts.find? (fun f => f.id == e.id) =
        some { g with
               accessed_at := st.time,
               access_count := g.access_count + 1 } := by
      rw [hf1]
      exact find?_id_bumpAccess st.facts e.id st.time g hg hgid
    refine ⟨hr1, ?_, ?_⟩
    · simp only [State.rowCount, hf1, bumpAccess, List.length_map]
    · simp only [State.accessCount, State.factById, hfid1, hg,
        Option.map_some', Option.getD_some]
  · intro hfind
    obtain ⟨hr1, hf1, _, _⟩ := remember_insert_case st c hfind
    refine ⟨hr1, ?_, ?_⟩
    · simp [State.rowCount, hf1]
    · show ((remember st c).2).facts.find? (fun f => f.id == st.nextFactId)
        = _
      rw [hf1]
      exact find?_id_append_new st.facts
        { id := st.nextFactId, content := c, tags := [], confidence := 1,
          entity_id := none, created_at := st.time, accessed_at := st.time,
          access_count := 0, superseded_by := none, hash := hashContent c }
        (fun f hf => by
          have := hWF f hf
          show f.id ≠ st.nextFactId
          omega)

/-- Witness for the amended C2 theorem: the store already holding a row
for `"q"` sees `remember "Q"` hit that row. -/
theorem remember_dedup_any_row_witness :
    (remember ((remember State.empty "q").2) "Q").1 =
      (⟨1, "q", [], 1, none, 0, 0, 0, none, "q"⟩ : Fact).id ∧
    ((remember ((remember State.empty "q").2) "Q").2).rowCount =
      ((remember State.empty "q").2).rowCount ∧
    ((remember ((remember State.empty "q").2) "Q").2).accessCount
        (⟨1, "q", [], 1, none, 0, 0, 0, none, "q"⟩ : Fact).id =
      ((remember State.empty "q").2).accessCount
        (⟨1, "q", [], 1, none, 0, 0, 0, none, "q"⟩ : Fact).id + 1 :=
  (remember_dedup_any_row ((remember State.empty "q").2) "Q"
      (by unfold WF; decide)).1
    ⟨1, "q", [], 1, none, 0, 0, 0, none, "q"⟩ (by decide)

end AgentMemory

namespace AgentMemory

theorem recall_sound (st : State) (q : String) (limit : Nat) (f : Fact)
    (hf : f ∈ («recall» st q limit).1) :
    f ∈ st.facts ∧ ftsMatch q f = true ∧ f.superseded_by = none := by
  have hmem := List.mem_of_mem_take hf
  have h := List.mem_filter.mp hmem
  have hp := h.2
  rw [Bool.and_eq_true] at hp
  exact ⟨h.1, hp.1, Option.isNone_iff_eq_none.mp hp.2⟩

theorem recall_complete (st : State) (q : String) (limit : Nat) (f : Fact)
    (hf : f ∈ st.facts) (hlive : f.superseded_by = none)
    (hmatch : ftsMatch q f = true)
    (hcount : st.facts.countP
      (fun g => ftsMatch q g && g.superseded_by.isNone) ≤ limit) :
    f ∈ («recall» st q limit).1 := by
  show f ∈ (st.facts.filter
    (fun g => ftsMatch q g && g.superseded_by.isNone)).take limit
  rw [List.countP_eq_length_filter] at hcount
  rw [List.take_of_length_le hcount]
  exact List.mem_filter.mpr ⟨hf, by simp [hmatch, hlive]⟩

theorem remember_mem_row (st : State) (c : String) (tg : List String)
    (cf : Rat) (ent : Option String) (f : Fact) (hf : f ∈ st.facts) :
    ∃ g ∈ (remember st c tg cf ent).2.facts,
      g.id = f.id ∧ g.superseded_by = f.superseded_by := by
  cases hfind : st.findByHash (hashContent c) with
  | some e =>
    simp only [remember, hfind, bumpAccess]
    exact ⟨_, List.mem_map_of_mem _ hf,
      bumpFn_id e.id st.time f, bumpFn_superseded e.id st.time f⟩
  | none =>
    simp only [remember, hfind]
    exact ⟨f, List.mem_append_left _ hf, rfl, rfl⟩

/-- Claim C3: `supersede` preserves history — the superseded row still
exists and points at the returned id — and `recall` excludes dead facts
while returning every matching live fact that fits under the limit. -/
theorem supersede_preserves_history (st : State) (oldId : Nat) (c : String)
    (hold : ∃ f ∈ st.facts, f.id = oldId) :
    (∃ f ∈ (supersede st oldId c).2.facts,
       f.id = oldId ∧ f.superseded_by = some (supersede st oldId c).1) ∧
    (∀ q limit f, f ∈ («recall» (supersede st oldId c).2 q limit).1 →
       f.superseded_by = none) ∧
    (∀ q limit f, f ∈ (supersede st oldId c).2.facts →
       f.superseded_by = none → ftsMatch q f = true →
       ((supersede st oldId c).2.facts.countP
          (fun g => ftsMatch q g && g.superseded_by.isNone)) ≤ limit →
       f ∈ («recall» (supersede st oldId c).2 q limit).1) := by
  refine ⟨?_, ?_, ?_⟩
  · obtain ⟨f0, hf0, hid0⟩ := hold
    obtain ⟨g, hg, hgid, _⟩ := remember_mem_row st c [] 1 none f0 hf0
    have hgo : (g.id == oldId) = true := by
      rw [hgid, hid0]; exact beq_self_eq_true oldId
    refine ⟨_, List.mem_map_of_mem _ hg, ?_, ?_⟩
    · rw [if_pos hgo]
      show g.id = oldId
      rw [hgid, hid0]
    · rw [if_pos hgo]
      exact rfl
  · intro q limit f hf
    exact (recall_sound _ q limit f hf).2.2
  · intro q limit f hf hlive hmatch hcount
    exact recall_complete _ q limit f hf hlive hmatch hcount

/-- Witness for the C3 theorem: superseding the only fact of a
single-fact store. -/
theorem supersede_preserves_history_witness :
    ∃ f ∈ (supersede ((remember State.empty "Paris is nice").2) 1
        "Paris is lovely").2.facts,
      f.id = 1 ∧ f.superseded_by =
        some (supersede ((remember State.empty "Paris is nice").2) 1
          "Paris is lovely").1 :=
  (supersede_preserves_history ((remember State.empty "Paris is nice").2) 1
      "Paris is lovely" (by decide)).1

end AgentMemory

namespace AgentMemory

/-- Claim C4, amended: when the replacement content's hash matches no
existing row, `supersede` inserts a fresh row and the superseded fact
references it with a strictly later `created_at`; when the hash matches
an existing row (possibly the superseded fact itself, as in the
counterexample) the reference may point at an equal or earlier
`created_at`. -/
theorem supersede_fresh_strictly_later (st : State) (oldId : Nat)
    (c : String) (hWF : WF st)
    (htime : ∀ f ∈ st.facts, f.created_at < st.time)
    (hfresh : st.findByHash (hashContent c) = none)
    (hold : ∃ f ∈ st.facts, f.id = oldId) :
    ∃ f ∈ (supersede st oldId c).2.facts,
      f.id = oldId ∧ f.superseded_by = some (supersede st oldId c).1 ∧
      ∃ nf ∈ (supersede st oldId c).2.facts,
        nf.id = (supersede st oldId c).1 ∧
        f.created_at < nf.created_at := by
  obtain ⟨f0, hf0, hid0⟩ := hold
  have hne : st.nextFactId ≠ oldId := by
    have := hWF f0 hf0
    omega
  have hfo : (f0.id == oldId) = true := by
    rw [hid0]; exact beq_self_eq_true oldId
  simp only [supersede, remember, hfresh]
  refine ⟨_, List.mem_map_of_mem _ (List.mem_append_left _ hf0),
    ?_, ?_, ?_⟩
  · rw [if_pos hfo]
    show f0.id = oldId
    exact hid0
  · rw [if_pos hfo]
  · have hnewo : ∀ nf : Fact, nf.id = st.nextFactId →
        (nf.id == oldId) = false := by
      intro nf h
      rw [h]
      simp only [beq_eq_false_iff_ne, ne_eq]
      exact hne
    refine ⟨_, List.mem_map_of_mem _ (List.mem_append_right _
      (List.mem_singleton_self _)), ?_, ?_⟩
    · rw [if_neg (by rw [hnewo _ rfl]; exact Bool.false_ne_true)]
    · rw [if_pos hfo,
        if_neg (by rw [hnewo _ rfl]; exact Bool.false_ne_true)]
      show f0.created_at < st.time
      exact htime f0 hf0

/-- Witness for the amended C4 theorem: fresh replacement content `"b"`
for the store holding only `"a"`. -/
theorem supersede_fresh_strictly_later_witness :
    ∃ f ∈ (supersede ((remember State.empty "a").2) 1 "b").2.facts,
      f.id = 1 ∧ f.superseded_by =
        some (supersede ((remember State.empty "a").2) 1 "b").1 ∧
      ∃ nf ∈ (supersede ((remember State.empty "a").2) 1 "b").2.facts,
        nf.id = (supersede ((remember State.empty "a").2) 1 "b").1 ∧
        f.created_at < nf.created_at :=
  supersede_fresh_strictly_later ((remember State.empty "a").2) 1 "b"
    (by unfold WF; decide) (by decide) (by decide) (by decide)

end AgentMemory

namespace AgentMemory

theorem track_entity_facts (st : State) (i : String)
    (a : List (String × Val)) :
    (track_entity st i a).facts = st.facts := by
  cases hmatch : st.entities.find? (fun e => e.id == i) <;>
    simp [track_entity, State.entityById, hmatch]

theorem update_entity_facts (st : State) (i : String)
    (a : List (String × Val)) :
    (update_entity st i a).facts = st.facts := by
  cases hmatch : st.entities.find? (fun e => e.id == i) with
  | some e0 => simp [update_entity, State.entityById, hmatch]
  | none =>
      rw [update_entity_absent_eq_track st i a hmatch, track_entity_facts]

theorem applyOp_preserves_dead (st : State) (op : Op) (f : Fact)
    (hf : f ∈ st.facts) (hdead : f.superseded_by ≠ none) :
    ∃ g ∈ (applyOp st op).facts, g.id = f.id ∧ g.superseded_by ≠ none := by
  cases op with
  | rememberOp c tg cf ent =>
    obtain ⟨g, hg, hgid, hgs⟩ := remember_mem_row st c tg cf ent f hf
    exact ⟨g, hg, hgid, by rw [hgs]; exact hdead⟩
  | recallOp q l =>
    refine ⟨_, List.mem_map_of_mem _ hf, ?_, ?_⟩
    · split <;> rfl
    · split
      · exact hdead
      · exact hdead
  | supersedeOp o c tg cf ent =>
    obtain ⟨g, hg, hgid, hgs⟩ := remember_mem_row st c tg cf ent f hf
    refine ⟨_, List.mem_map_of_mem _ hg, ?_, ?_⟩
    · split
      · show g.id = f.id
        exact hgid
      · exact hgid
    · split
      · show some (remember st c tg cf ent).1 ≠ none
        simp
      · rw [hgs]
        exact hdead
  | learnOp a c o i => exact ⟨f, hf, rfl, hdead⟩
  | getLessonsOp c o l => exact ⟨f, hf, rfl, hdead⟩
  | trackEntityOp i a =>
    refine ⟨f, ?_, rfl, hdead⟩
    show f ∈ (track_entity st i a).facts
    rw [track_entity_facts]
    exact hf
  | updateEntityOp i a =>
    refine ⟨f, ?_, rfl, hdead⟩
    show f ∈ (update_entity st i a).facts
    rw [update_entity_facts]
    exact hf
  | getEntityOp i b => exact ⟨f, hf, rfl, hdead⟩
  | statsOp => exact ⟨f, hf, rfl, hdead⟩
  | cleanupOp m n =>
    have hnone : f.superseded_by.isNone = false := by
      cases hs : f.superseded_by with
      | none => exact absurd hs hdead
      | some x => rfl
    refine ⟨f, ?_, rfl, hdead⟩
    show f ∈ ((cleanup st m n).2).facts
    exact List.mem_filter.mpr ⟨hf, by simp [doomed, hnone]⟩

/-- Claim C9: the fact lifecycle is one-way — a row whose
`superseded_by` is set keeps a non-null `superseded_by` (and is never
deleted) across every sequence of public operations. -/
theorem superseded_stays_superseded (st : State) (ops : List Op) (f : Fact)
    (hf : f ∈ st.facts) (hdead : f.superseded_by ≠ none) :
    ∃ g ∈ (runOps st ops).facts, g.id = f.id ∧ g.superseded_by ≠ none := by
  induction ops generalizing st f with
  | nil => exact ⟨f, hf, rfl, hdead⟩
  | cons op ops ih =>
    obtain ⟨g, hg, hgid, hgs⟩ := applyOp_preserves_dead st op f hf hdead
    obtain ⟨g2, hg2, hg2id, hg2s⟩ := ih (applyOp st op) g hg hgs
    exact ⟨g2, hg2, by rw [hg2id, hgid], hg2s⟩

/-- Witness for the C9 theorem: the superseded row 1 survives a
`remember` and a `cleanup` with its `superseded_by` still set. -/
theorem superseded_stays_superseded_witness :
    ∃ g ∈ (runOps ((supersede (remember State.empty "a").2 1 "b").2)
        [Op.rememberOp "zz" [] 1 none, Op.cleanupOp 0 0]).facts,
      g.id = (⟨1, "a", [], 1, none, 0, 0, 0, some 2, "a"⟩ : Fact).id ∧
      g.superseded_by ≠ none :=
  superseded_stays_superseded ((supersede (remember State.empty "a").2 1 "b").2)
    [Op.rememberOp "zz" [] 1 none, Op.cleanupOp 0 0]
    ⟨1, "a", [], 1, none, 0, 0, 0, some 2, "a"⟩ (by decide) (by decide)

end AgentMemory
